import Mathlib

/-!
Verification of the TSS calculator (`tss_calculator.py`).

The numeric model uses exact rationals (`ℚ`) for the power arithmetic and
integers for second counts.  Python's `round(x, n)` is modelled by exact
round-half-even at `n` decimal digits (`pround`).  Python's `int(x)` is
modelled by truncation toward zero.  Code that raises an exception
(dictionary access of a missing key, division by zero) is modelled with
`Option`: `none` stands for the raised exception.  The floating-point
`avg ** 0.25` of the final Normalized-Power step is modelled relationally
over `ℝ` (the exact nonnegative fourth root followed by rounding).
-/

/-- Round-half-even of a rational to the nearest integer (the tie-breaking
behaviour of Python's `round`). -/
def roundHalfEven (q : ℚ) : ℤ :=
  let f := ⌊q⌋
  if q - f < 1/2 then f
  else if 1/2 < q - f then f + 1
  else if f % 2 = 0 then f else f + 1

/-- Python's `round(q, digits)`: round-half-even at `digits` decimal digits. -/
def pround (digits : ℕ) (q : ℚ) : ℚ :=
  (roundHalfEven (q * 10 ^ digits) : ℚ) / 10 ^ digits

/-- Python's `int(x)` on a rational: truncation toward zero. -/
def truncInt (q : ℚ) : ℤ :=
  if 0 ≤ q then ⌊q⌋ else ⌈q⌉

/-- The dictionary `power_zones_to_power` of
`JsonParser._find_power_at_power_zone`: zone label to FTP multiplier;
`none` models a label absent from the dictionary. -/
def power_zones_to_power (power_zone : String) : Option ℚ :=
  if power_zone = "S1" then some (1/2)
  else if power_zone = "S2" then some (61/100)
  else if power_zone = "S3" then some (88/100)
  else if power_zone = "SST" then some (91/100)
  else if power_zone = "S4" then some (98/100)
  else if power_zone = "S5" then some (113/100)
  else none

/-- `JsonParser._find_power_at_power_zone`: looks the zone up in the
dictionary; on a missing zone it logs an error and returns `0`, otherwise
it returns `multiplier * ftp`. -/
def find_power_at_power_zone (ftp : ℚ) (power_zone : String) : ℚ :=
  match power_zones_to_power power_zone with
  | none => 0
  | some m => m * ftp

/-- Modelled from the spec (section 4.1), for comparison with the source:
`power_at_zone` returns `threshold_power * multiplier[zone_label]` and
fails (here: `none`) when the label is not recognized. -/
def power_at_zone_spec (zone_label : String) (threshold_power : ℚ) : Option ℚ :=
  (power_zones_to_power zone_label).map (fun m => m * threshold_power)

/-- `JsonParser._convert_minutes_to_seconds`: `int(minutes * 60)`. -/
def convert_minutes_to_seconds (minutes : ℚ) : ℤ :=
  truncInt (minutes * 60)

/-- `JsonParser._generate_power_readings_steady`: `[power] * duration`
(an empty list when the count is not positive, as in Python). -/
def generate_power_readings_steady (duration_in_seconds : ℤ) (power : ℚ) : List ℚ :=
  List.replicate duration_in_seconds.toNat power

/-- The mutable state of a `JsonParser` instance: accumulated total
duration (seconds) and accumulated power readings. -/
structure JsonParserState where
  totalDuration : ℤ
  powerReadings : List ℚ
deriving DecidableEq

/-- The state set up by `JsonParser.__init__`. -/
def initial_state : JsonParserState :=
  { totalDuration := 0, powerReadings := [] }

/-- `JsonParser._parse_workout_block_steady`: adds the truncated second
count to the total duration and appends that many copies of the target
power to the readings. -/
def parse_workout_block_steady (ftp : ℚ) (s : JsonParserState)
    (duration_in_minutes : ℚ) (power_zone : String) : JsonParserState :=
  let duration_in_seconds := convert_minutes_to_seconds duration_in_minutes
  let target_power := find_power_at_power_zone ftp power_zone
  { totalDuration := s.totalDuration + duration_in_seconds,
    powerReadings :=
      s.powerReadings ++ generate_power_readings_steady duration_in_seconds target_power }

/-- Applies `f` to the state `n` times (the `for _ in range(repeats)` loop). -/
def repeatApply (f : α → α) : ℕ → α → α
  | 0, a => a
  | n + 1, a => repeatApply f n (f a)

/-- `JsonParser._parse_workout_block_interval` after its five dictionary
reads: `repeats` iterations, each a work steady sub-block followed by a
rest steady sub-block.  `range` of a non-positive count is empty. -/
def parse_workout_block_interval (ftp : ℚ) (s : JsonParserState) (repeats : ℤ)
    (work_duration : ℚ) (work_power_zone : String)
    (rest_duration : ℚ) (rest_power_zone : String) : JsonParserState :=
  repeatApply
    (fun st =>
      parse_workout_block_steady ftp
        (parse_workout_block_steady ftp st work_duration work_power_zone)
        rest_duration rest_power_zone)
    repeats.toNat s

/-- A raw workout-block object of the JSON file: each field is present
(`some`) or missing (`none`). -/
structure RawBlock where
  type? : Option String
  duration? : Option ℚ
  powerZone? : Option String
  repeats? : Option ℤ
  workDuration? : Option ℚ
  workPowerZone? : Option String
  restDuration? : Option ℚ
  restPowerZone? : Option String
deriving DecidableEq

/-- `JsonParser._duration_is_valid`: `0 < duration < 400` (minutes). -/
def duration_is_valid (duration_in_minutes : ℚ) : Bool :=
  decide (0 < duration_in_minutes) && decide (duration_in_minutes < 400)

/-- `JsonParser._power_zone_is_valid`: membership in the six labels. -/
def power_zone_is_valid (power_zone : String) : Bool :=
  (["S1", "S2", "S3", "SST", "S4", "S5"] : List String).contains power_zone

/-- `JsonParser._validate_field` on one optional field: present and
passing its check. -/
def validate_field (field : Option α) (check : α → Bool) : Bool :=
  match field with
  | none => false
  | some v => check v

/-- `JsonParser._validate_block_type_steady`. -/
def validate_block_type_steady (b : RawBlock) : Bool :=
  validate_field b.duration? duration_is_valid &&
  validate_field b.powerZone? power_zone_is_valid

/-- `JsonParser._validate_block_type_interval`. -/
def validate_block_type_interval (b : RawBlock) : Bool :=
  validate_field b.repeats? (fun i => decide (0 < i)) &&
  validate_field b.workDuration? duration_is_valid &&
  validate_field b.restDuration? duration_is_valid &&
  validate_field b.workPowerZone? power_zone_is_valid &&
  validate_field b.restPowerZone? power_zone_is_valid

/-- `JsonParser._validate_workout_block`: requires a `type` field of
length `> 1`, then dispatches on `steady`/`interval`; any other type is
unsupported and fails. -/
def validate_workout_block (b : RawBlock) : Bool :=
  match b.type? with
  | none => false
  | some t =>
    if ¬ (1 < t.length) then false
    else if t = "steady" then validate_block_type_steady b
    else if t = "interval" then validate_block_type_interval b
    else false

/-- `JsonParser._parse_workout_block`: dispatches on the `type` field and
reads the per-type fields; a missing field is a raised `KeyError`,
modelled as `none`.  An unsupported type only logs. -/
def parse_workout_block (ftp : ℚ) (s : JsonParserState) (b : RawBlock) :
    Option JsonParserState :=
  match b.type? with
  | none => none
  | some t =>
    if t = "steady" then
      match b.duration?, b.powerZone? with
      | some d, some z => some (parse_workout_block_steady ftp s d z)
      | _, _ => none
    else if t = "interval" then
      match b.repeats?, b.workDuration?, b.workPowerZone?,
            b.restDuration?, b.restPowerZone? with
      | some r, some wd, some wz, some rd, some rz =>
          some (parse_workout_block_interval ftp s r wd wz rd rz)
      | _, _, _, _, _ => none
    else some s

/-- `JsonParser.parse_file` on the decoded block list: validate each
block, skip it when validation fails, otherwise parse it (a raised
exception propagates). -/
def parse_file (ftp : ℚ) : JsonParserState → List RawBlock → Option JsonParserState
  | s, [] => some s
  | s, b :: rest =>
    if validate_workout_block b then
      (parse_workout_block ftp s b).bind (fun s2 => parse_file ftp s2 rest)
    else
      parse_file ftp s rest

/-- `read_data_from_json_files`: one `JsonParser` instance fed every file
in order. -/
def parse_files (ftp : ℚ) : JsonParserState → List (List RawBlock) → Option JsonParserState
  | s, [] => some s
  | s, f :: rest => (parse_file ftp s f).bind (fun s2 => parse_files ftp s2 rest)

/-- `NormalizedPowerCalculator._calculate_rolling_average`: one window of
30 samples per starting index `i` while `i + 30 ≤ length`, each window's
sum divided by 30 and rounded to 2 digits. -/
def calculate_rolling_average (input : List ℚ) : List ℚ :=
  (List.range (input.length + 1 - 30)).map
    (fun i => pround 2 (((input.drop i).take 30).sum / 30))

/-- `NormalizedPowerCalculator._raise_to_4th_power`. -/
def raise_to_4th_power (l : List ℚ) : List ℚ :=
  l.map (fun x => x ^ 4)

/-- `NormalizedPowerCalculator._find_average_of_raised_values`:
`sum / len`; a zero length raises `ZeroDivisionError`, modelled as
`none`. -/
def find_average_of_raised_values (l : List ℚ) : Option ℚ :=
  if l.length = 0 then none else some (l.sum / l.length)

/-- Round-half-even of a real to the nearest integer, as a relation:
either `x` lies strictly within half a unit of `z`, or `x` is exactly a
half and `z` is the even neighbour. -/
def IsRoundHE (x : ℝ) (z : ℤ) : Prop :=
  ((z : ℝ) - 1/2 < x ∧ x < (z : ℝ) + 1/2) ∨
  ((x = (z : ℝ) - 1/2 ∨ x = (z : ℝ) + 1/2) ∧ z % 2 = 0)

/-- `NormalizedPowerCalculator._process_data` followed by `get_result`:
`np` is the result iff the average of the 4th powers of the rolling
averages exists (`some avg`), and `np` is that average's nonnegative
fourth root (`avg ** 0.25`) rounded to 2 digits. -/
def normalizedPowerResult (input : List ℚ) (np : ℚ) : Prop :=
  ∃ avg : ℚ,
    find_average_of_raised_values (raise_to_4th_power (calculate_rolling_average input))
      = some avg ∧
    ∃ r : ℝ, 0 ≤ r ∧ r ^ 4 = (avg : ℝ) ∧
      ∃ z : ℤ, IsRoundHE (r * 100) z ∧ np = (z : ℚ) / 100

/-- `find_intensity_factor`: `round(normalized_power / ftp, 2)`. -/
def find_intensity_factor (normalized_power ftp : ℚ) : ℚ :=
  pround 2 (normalized_power / ftp)

/-- `find_training_stres_score` (source spelling):
`round((duration * normalized_power * intensity_factor) / (ftp * 3600) * 100, 1)`. -/
def find_training_stres_score (duration normalized_power intensity_factor ftp : ℚ) : ℚ :=
  pround 1 ((duration * normalized_power * intensity_factor) / (ftp * 3600) * 100)

/-- Modelled from the spec (section 4.6), for comparison with the source:
`intensity_factor = round(normalized_power / threshold_power, 2 digits)`. -/
def intensity_factor_spec (normalized_power threshold_power : ℚ) : ℚ :=
  pround 2 (normalized_power / threshold_power)

/-- Modelled from the spec (section 4.6), for comparison with the source:
`training_stress_score = round((duration_seconds * normalized_power *
intensity_factor) / (threshold_power * 3600) * 100, 1 digit)`. -/
def training_stress_score_spec (duration_seconds normalized_power intensity_factor threshold_power : ℚ) : ℚ :=
  pround 1 (duration_seconds * normalized_power * intensity_factor / (threshold_power * 3600) * 100)

/-- The per-file loop of `input_arguments_are_valid`: each file must
exist, have a `.fit` or `.json` extension, and share the extension of the
files before it (`actual` carries the extension seen so far). -/
def check_files (isfile : String → Bool) : Option String → List String → Bool
  | _, [] => true
  | actual, f :: rest =>
    if ¬ isfile f then false
    else
      match (if f.endsWith ".fit" then some ".fit"
             else if f.endsWith ".json" then some ".json" else none) with
      | none => false
      | some current =>
        match actual with
        | none => check_files isfile (some current) rest
        | some a => if a ≠ current then false else check_files isfile (some a) rest

/-- `input_arguments_are_valid`: FTP must lie in `[100, 400]`, then every
file of the list is checked; the filesystem is abstracted by the
`isfile` oracle. -/
def input_arguments_are_valid (isfile : String → Bool) (ftp : ℤ) (files : List String) : Bool :=
  if ftp < 100 ∨ 400 < ftp then false
  else check_files isfile none files

/-- Consistency of a `WorkoutTotals`: the accumulated duration equals the
number of accumulated power samples. -/
def Consistent (s : JsonParserState) : Prop :=
  s.totalDuration = (s.powerReadings.length : ℤ)

/-! ### Rounding and truncation lemmas -/

theorem roundHalfEven_intCast (z : ℤ) : roundHalfEven (z : ℚ) = z := by
  simp [roundHalfEven]

theorem roundHalfEven_nonneg (q : ℚ) (h : 0 ≤ q) : 0 ≤ roundHalfEven q := by
  have hf : (0 : ℤ) ≤ ⌊q⌋ := Int.floor_nonneg.mpr h
  unfold roundHalfEven
  dsimp only
  split
  · exact hf
  · split
    · omega
    · split
      · exact hf
      · omega

theorem pround_nonneg (d : ℕ) (q : ℚ) (h : 0 ≤ q) : 0 ≤ pround d q := by
  unfold pround
  have h1 : (0 : ℚ) ≤ q * 10 ^ d := by positivity
  have h2 : (0 : ℤ) ≤ roundHalfEven (q * 10 ^ d) := roundHalfEven_nonneg _ h1
  have h3 : (0 : ℚ) ≤ (roundHalfEven (q * 10 ^ d) : ℚ) := by exact_mod_cast h2
  positivity

theorem abs_roundHalfEven_sub_le (q : ℚ) : |(roundHalfEven q : ℚ) - q| ≤ 1/2 := by
  have hfl : (⌊q⌋ : ℚ) ≤ q := Int.floor_le q
  have hfu : q < (⌊q⌋ : ℚ) + 1 := Int.lt_floor_add_one q
  unfold roundHalfEven
  dsimp only
  split
  · next hlt => rw [abs_le]; constructor <;> linarith
  · split
    · next hgt => push_cast; rw [abs_le]; constructor <;> linarith
    · next h1 h2 =>
      have he : q - (⌊q⌋ : ℚ) = 1/2 := le_antisymm (not_lt.mp h2) (not_lt.mp h1)
      split <;> [skip; push_cast] <;> rw [abs_le] <;> constructor <;> linarith

theorem pround_within (d : ℕ) (q : ℚ) : |pround d q - q| ≤ 1 / (2 * 10 ^ d) := by
  have h10 : (0 : ℚ) < 10 ^ d := by positivity
  have h := abs_roundHalfEven_sub_le (q * 10 ^ d)
  have key : pround d q - q = ((roundHalfEven (q * 10 ^ d) : ℚ) - q * 10 ^ d) / 10 ^ d := by
    unfold pround
    field_simp
    ring
  rw [key, abs_div, abs_of_pos h10]
  calc |(roundHalfEven (q * 10 ^ d) : ℚ) - q * 10 ^ d| / 10 ^ d
      ≤ (1/2) / 10 ^ d := by
        gcongr
    _ = 1 / (2 * 10 ^ d) := by ring

/-! ### Steady-block synthesis -/

theorem convert_minutes_to_seconds_of_pos (d : ℚ) (h : 0 < d) :
    convert_minutes_to_seconds d = ⌊d * 60⌋ := by
  unfold convert_minutes_to_seconds truncInt
  rw [if_pos (by positivity)]

theorem floor_sixty_nonneg (d : ℚ) (h : 0 < d) : 0 ≤ ⌊d * 60⌋ :=
  Int.floor_nonneg.mpr (by positivity)

/-- C1: synthesizing a steady block of `d` minutes (`0 < d < 400`) in a
recognized zone of multiplier `m` appends exactly `⌊d * 60⌋` samples, each
equal to `m * ftp`, and increases the total duration by the same integer
`⌊d * 60⌋` (truncation of `d * 60`, which for positive `d` is its floor). -/
theorem steady_block_synthesis (ftp d : ℚ) (z : String) (m : ℚ) (s : JsonParserState)
    (h1 : 0 < d) (_h2 : d < 400) (hz : power_zones_to_power z = some m) :
    (parse_workout_block_steady ftp s d z).powerReadings
      = s.powerReadings ++ List.replicate (⌊d * 60⌋).toNat (m * ftp) ∧
    (parse_workout_block_steady ftp s d z).powerReadings.length
      = s.powerReadings.length + (⌊d * 60⌋).toNat ∧
    (parse_workout_block_steady ftp s d z).totalDuration
      = s.totalDuration + ⌊d * 60⌋ ∧
    ((⌊d * 60⌋).toNat : ℤ) = ⌊d * 60⌋ := by
  have hc := convert_minutes_to_seconds_of_pos d h1
  have hp : find_power_at_power_zone ftp z = m * ftp := by
    unfold find_power_at_power_zone
    rw [hz]
  refine ⟨?_, ?_, ?_, Int.toNat_of_nonneg (floor_sixty_nonneg d h1)⟩
  · simp [parse_workout_block_steady, generate_power_readings_steady, hc, hp]
  · simp [parse_workout_block_steady, generate_power_readings_steady, hc, hp]
  · simp [parse_workout_block_steady, hc]

/-- Witness for C1: a 1-minute steady block in zone `S1` at FTP 200. -/
theorem steady_block_synthesis_witness :
    (0 : ℚ) < 1 ∧ (1 : ℚ) < 400 ∧ power_zones_to_power "S1" = some (1/2) ∧
    ((parse_workout_block_steady 200 initial_state 1 "S1").powerReadings
       = initial_state.powerReadings ++ List.replicate (⌊(1 : ℚ) * 60⌋).toNat ((1/2) * 200) ∧
     (parse_workout_block_steady 200 initial_state 1 "S1").powerReadings.length
       = initial_state.powerReadings.length + (⌊(1 : ℚ) * 60⌋).toNat ∧
     (parse_workout_block_steady 200 initial_state 1 "S1").totalDuration
       = initial_state.totalDuration + ⌊(1 : ℚ) * 60⌋ ∧
     ((⌊(1 : ℚ) * 60⌋).toNat : ℤ) = ⌊(1 : ℚ) * 60⌋) :=
  ⟨by norm_num, by norm_num, rfl,
   steady_block_synthesis 200 1 "S1" (1/2) initial_state (by norm_num) (by norm_num) rfl⟩

/-! ### Unknown power zones -/

/-- C7 (amended): for every zone label outside the six recognized ones,
`_find_power_at_power_zone` logs the error and returns `0` — zero power,
never a nonzero value, and no exception is raised (the function still
returns).  The spec-modelled `power_at_zone` contract has no value there. -/
theorem unknown_zone_returns_zero (ftp : ℚ) (z : String)
    (h : power_zone_is_valid z = false) :
    find_power_at_power_zone ftp z = 0 ∧ power_at_zone_spec z ftp = none := by
  have hz : power_zones_to_power z = none := by
    simp [power_zone_is_valid] at h
    obtain ⟨h1, h2, h3, h4, h5, h6⟩ := h
    unfold power_zones_to_power
    simp [h1, h2, h3, h4, h5, h6]
  constructor
  · unfold find_power_at_power_zone
    rw [hz]
  · unfold power_at_zone_spec
    rw [hz]
    rfl

/-- Witness for the amended C7: the unknown label `S9` at FTP 200. -/
theorem unknown_zone_returns_zero_witness :
    power_zone_is_valid "S9" = false ∧
    (find_power_at_power_zone 200 "S9" = 0 ∧ power_at_zone_spec "S9" 200 = none) :=
  ⟨by decide, unknown_zone_returns_zero 200 "S9" (by decide)⟩

/-- Counterexample to C7 as stated: at the unrecognized label `S9` the
source's lookup does not fail — it returns the value `0` (while the
spec-modelled `power_at_zone` contract fails with the zone error there),
so no `UnknownZoneError` propagates out of `_find_power_at_power_zone`. -/
theorem unknown_zone_claim_counterexample :
    find_power_at_power_zone 200 "S9" = 0 ∧
    power_at_zone_spec "S9" 200 = none ∧
    (parse_workout_block_steady 200 initial_state 1 "S9").powerReadings
      = List.replicate 60 0 := by
  refine ⟨rfl, rfl, ?_⟩
  have h1 : convert_minutes_to_seconds 1 = 60 := by
    norm_num [convert_minutes_to_seconds, truncInt]
  have h2 : find_power_at_power_zone 200 "S9" = 0 := rfl
  simp [parse_workout_block_steady, generate_power_readings_steady, h1, h2, initial_state]

/-! ### Command-line validation accepts an empty file list -/

/-- C10: for every FTP in `[100, 400]` and every filesystem state,
`input_arguments_are_valid` accepts an empty list of data files: the
per-file checks run only on files present and no nonempty condition is
enforced. -/
theorem empty_file_list_accepted (isfile : String → Bool) (ftp : ℤ)
    (h1 : 100 ≤ ftp) (h2 : ftp ≤ 400) :
    input_arguments_are_valid isfile ftp [] = true := by
  unfold input_arguments_are_valid
  rw [if_neg (by omega)]
  rfl

/-- Witness for C10: FTP 250 with a filesystem oracle holding no files. -/
theorem empty_file_list_accepted_witness :
    (100 : ℤ) ≤ 250 ∧ (250 : ℤ) ≤ 400 ∧
    input_arguments_are_valid (fun _ => false) 250 [] = true :=
  ⟨by norm_num, by norm_num, empty_file_list_accepted (fun _ => false) 250 (by norm_num) (by norm_num)⟩

/-! ### Interval-block synthesis -/

theorem interval_loop_shape (ftp wd rd : ℚ) (wz rz : String) (n : ℕ) (s : JsonParserState) :
    (repeatApply
        (fun st =>
          parse_workout_block_steady ftp
            (parse_workout_block_steady ftp st wd wz) rd rz) n s).powerReadings
      = s.powerReadings ++
          (List.replicate n
            (generate_power_readings_steady (convert_minutes_to_seconds wd)
                (find_power_at_power_zone ftp wz) ++
             generate_power_readings_steady (convert_minutes_to_seconds rd)
                (find_power_at_power_zone ftp rz))).flatten ∧
    (repeatApply
        (fun st =>
          parse_workout_block_steady ftp
            (parse_workout_block_steady ftp st wd wz) rd rz) n s).totalDuration
      = s.totalDuration +
          n * (convert_minutes_to_seconds wd + convert_minutes_to_seconds rd) := by
  induction n generalizing s with
  | zero => simp [repeatApply]
  | succ n ih =>
    obtain ⟨ih1, ih2⟩ := ih (parse_workout_block_steady ftp
      (parse_workout_block_steady ftp s wd wz) rd rz)
    constructor
    · rw [repeatApply, ih1]
      simp [parse_workout_block_steady, List.replicate_succ]
    · rw [repeatApply, ih2]
      simp only [parse_workout_block_steady]
      push_cast
      ring

/-- C2: synthesizing an interval block with `repeats = r`, work duration
`wd` and rest duration `rd` (both positive) in recognized zones of
multipliers `wm` and `rm` appends `r` repetitions, each being exactly
`⌊wd * 60⌋` work-power samples followed by `⌊rd * 60⌋` rest-power samples
(strict work-then-rest order); the total sample count grows by
`r * (⌊wd * 60⌋ + ⌊rd * 60⌋)`, and a non-positive `r` contributes
nothing. -/
theorem interval_block_synthesis (ftp wd rd : ℚ) (wz rz : String) (wm rm : ℚ)
    (r : ℤ) (s : JsonParserState)
    (hwd : 0 < wd) (hrd : 0 < rd)
    (hwz : power_zones_to_power wz = some wm)
    (hrz : power_zones_to_power rz = some rm) :
    (parse_workout_block_interval ftp s r wd wz rd rz).powerReadings
      = s.powerReadings ++
          (List.replicate r.toNat
            (List.replicate (⌊wd * 60⌋).toNat (wm * ftp) ++
             List.replicate (⌊rd * 60⌋).toNat (rm * ftp))).flatten ∧
    (parse_workout_block_interval ftp s r wd wz rd rz).powerReadings.length
      = s.powerReadings.length +
          r.toNat * ((⌊wd * 60⌋).toNat + (⌊rd * 60⌋).toNat) := by
  have hw : find_power_at_power_zone ftp wz = wm * ftp := by
    unfold find_power_at_power_zone; rw [hwz]
  have hr : find_power_at_power_zone ftp rz = rm * ftp := by
    unfold find_power_at_power_zone; rw [hrz]
  have hcw := convert_minutes_to_seconds_of_pos wd hwd
  have hcr := convert_minutes_to_seconds_of_pos rd hrd
  obtain ⟨h1, h2⟩ := interval_loop_shape ftp wd rd wz rz r.toNat s
  unfold parse_workout_block_interval
  rw [h1]
  unfold generate_power_readings_steady
  rw [hw, hr, hcw, hcr]
  refine ⟨rfl, ?_⟩
  simp [List.length_flatten, List.map_replicate, List.sum_replicate, Nat.mul_comm]

/-- Witness for C2: two repetitions of 1 minute in `S4` then 1 minute in
`S1` at FTP 200. -/
theorem interval_block_synthesis_witness :
    (0 : ℚ) < 1 ∧ power_zones_to_power "S4" = some (98/100) ∧
    power_zones_to_power "S1" = some (1/2) ∧
    ((parse_workout_block_interval 200 initial_state 2 1 "S4" 1 "S1").powerReadings
       = initial_state.powerReadings ++
           (List.replicate (2 : ℤ).toNat
             (List.replicate (⌊(1 : ℚ) * 60⌋).toNat ((98/100) * 200) ++
              List.replicate (⌊(1 : ℚ) * 60⌋).toNat ((1/2) * 200))).flatten ∧
     (parse_workout_block_interval 200 initial_state 2 1 "S4" 1 "S1").powerReadings.length
       = initial_state.powerReadings.length +
           (2 : ℤ).toNat * ((⌊(1 : ℚ) * 60⌋).toNat + (⌊(1 : ℚ) * 60⌋).toNat)) :=
  ⟨by norm_num, rfl, rfl,
   interval_block_synthesis 200 1 1 "S4" "S1" (98/100) (1/2) 2 initial_state
     (by norm_num) (by norm_num) rfl rfl⟩

/-! ### Rolling average -/

/-- C3: the rolling-average stage produces `max(0, length - 29)` values;
for every start index `i` with `i + 30 ≤ length`, the window
`series[i .. i+30)` has exactly 30 samples and the `i`-th output (in
increasing order of `i`) is the window's arithmetic mean rounded to 2
decimal digits. -/
theorem rolling_average_spec (input : List ℚ) :
    ((calculate_rolling_average input).length : ℤ) = max 0 ((input.length : ℤ) - 29) ∧
    ∀ i : ℕ, i + 30 ≤ input.length →
      ((input.drop i).take 30).length = 30 ∧
      (calculate_rolling_average input)[i]? =
        some (pround 2 (((input.drop i).take 30).sum / 30)) := by
  constructor
  · unfold calculate_rolling_average
    simp only [List.length_map, List.length_range]
    omega
  · intro i hi
    constructor
    · simp only [List.length_take, List.length_drop]
      omega
    · unfold calculate_rolling_average
      rw [List.getElem?_map, List.getElem?_range (by omega)]
      rfl

/-- Witness for C3: a constant series of 31 samples at 100 W, inspected
at start index 1. -/
theorem rolling_average_spec_witness :
    ((calculate_rolling_average (List.replicate 31 (100 : ℚ))).length : ℤ)
      = max 0 (((List.replicate 31 (100 : ℚ)).length : ℤ) - 29) ∧
    1 + 30 ≤ (List.replicate 31 (100 : ℚ)).length ∧
    ((((List.replicate 31 (100 : ℚ)).drop 1).take 30).length = 30 ∧
     (calculate_rolling_average (List.replicate 31 (100 : ℚ)))[1]? =
       some (pround 2 ((((List.replicate 31 (100 : ℚ)).drop 1).take 30).sum / 30))) :=
  ⟨(rolling_average_spec (List.replicate 31 (100 : ℚ))).1, by simp,
   (rolling_average_spec (List.replicate 31 (100 : ℚ))).2 1 (by simp)⟩

/-! ### Short series: unguarded division by zero -/

/-- C6: a power series of fewer than 30 samples yields an empty rolling
averages sequence, and the mean-of-raised-values step then fails with the
arithmetic (division-by-zero) fault, modelled as `none` — no Normalized
Power result exists at all. -/
theorem short_series_unguarded (input : List ℚ) (h : input.length < 30) :
    calculate_rolling_average input = [] ∧
    find_average_of_raised_values (raise_to_4th_power (calculate_rolling_average input))
      = none ∧
    ∀ np : ℚ, ¬ normalizedPowerResult input np := by
  have h0 : input.length + 1 - 30 = 0 := by omega
  have h1 : calculate_rolling_average input = [] := by
    unfold calculate_rolling_average
    rw [h0]
    rfl
  refine ⟨h1, ?_, ?_⟩
  · rw [h1]
    rfl
  · intro np hnp
    obtain ⟨avg, havg, _⟩ := hnp
    rw [h1] at havg
    simp [raise_to_4th_power, find_average_of_raised_values] at havg

/-- Witness for C6: a series of 29 samples. -/
theorem short_series_unguarded_witness :
    (List.replicate 29 (100 : ℚ)).length < 30 ∧
    (calculate_rolling_average (List.replicate 29 (100 : ℚ)) = [] ∧
     find_average_of_raised_values
         (raise_to_4th_power (calculate_rolling_average (List.replicate 29 (100 : ℚ))))
       = none ∧
     ∀ np : ℚ, ¬ normalizedPowerResult (List.replicate 29 (100 : ℚ)) np) :=
  ⟨by simp, short_series_unguarded (List.replicate 29 (100 : ℚ)) (by simp)⟩

/-! ### Intensity Factor and Training Stress Score -/

/-- C5: for positive threshold power, the source's `find_intensity_factor`
and `find_training_stres_score` compute exactly the spec's formulas
`round(normalized_power / threshold_power, 2)` and
`round((duration * normalized_power * intensity_factor) /
(threshold_power * 3600) * 100, 1)` — pure functions of their numeric
inputs. -/
theorem load_metrics_formulas (duration normalized_power intensity_factor ftp : ℚ)
    (_h : 0 < ftp) :
    find_intensity_factor normalized_power ftp
      = intensity_factor_spec normalized_power ftp ∧
    find_training_stres_score duration normalized_power intensity_factor ftp
      = training_stress_score_spec duration normalized_power intensity_factor ftp :=
  ⟨rfl, rfl⟩

/-- Witness for C5, on the spec's end-to-end scenario: duration 40 s,
Normalized Power 150 W, FTP 200 W give Intensity Factor `0.75` and
TSS `0.6`. -/
theorem load_metrics_formulas_witness :
    (0 : ℚ) < 200 ∧
    (find_intensity_factor 150 200 = intensity_factor_spec 150 200 ∧
     find_training_stres_score 40 150 (3/4) 200
       = training_stress_score_spec 40 150 (3/4) 200) ∧
    find_intensity_factor 150 200 = 3/4 ∧
    find_training_stres_score 40 150 (3/4) 200 = 3/5 :=
  ⟨by norm_num, load_metrics_formulas 40 150 (3/4) 200 (by norm_num),
   by norm_num [find_intensity_factor, pround, roundHalfEven],
   by norm_num [find_training_stres_score, pround, roundHalfEven]⟩

/-! ### Normalized Power of a constant series -/

theorem rolling_average_const (n : ℕ) (v : ℚ) (hn : 30 ≤ n) :
    calculate_rolling_average (List.replicate n v) = List.replicate (n - 29) (pround 2 v) := by
  unfold calculate_rolling_average
  rw [List.eq_replicate_iff]
  constructor
  · simp
  · intro b hb
    simp only [List.mem_map, List.mem_range, List.length_replicate] at hb
    obtain ⟨i, hi, rfl⟩ := hb
    have hwin : ((List.replicate n v).drop i).take 30 = List.replicate 30 v := by
      have h1 : (List.replicate n v).drop i = List.replicate (n - i) v := by simp
      have h2 : (List.replicate (n - i) v).take 30 = List.replicate (min 30 (n - i)) v := by
        simp
      rw [h1, h2, show min 30 (n - i) = 30 from by omega]
    rw [hwin]
    congr 1
    rw [List.sum_replicate, nsmul_eq_mul]
    push_cast
    rw [mul_div_cancel_left₀ v (by norm_num : (30 : ℚ) ≠ 0)]

/-- C4: for a constant power series of value `v ≥ 0` with at least 30
samples, every rolling average equals `round(v, 2)` and the
4th-power / mean / 4th-root pipeline round-trips to exactly that value:
the Normalized Power result is `round(v, 2)`, which is `v` within the
2-decimal rounding tolerance (at most `0.005` away). -/
theorem constant_series_normalized_power (n : ℕ) (v : ℚ) (hn : 30 ≤ n) (hv : 0 ≤ v) :
    calculate_rolling_average (List.replicate n v) = List.replicate (n - 29) (pround 2 v) ∧
    normalizedPowerResult (List.replicate n v) (pround 2 v) ∧
    |pround 2 v - v| ≤ 1/200 := by
  have hroll := rolling_average_const n v hn
  have hwq : pround 2 v * 100 = (roundHalfEven (v * 10 ^ 2) : ℚ) := by
    unfold pround
    norm_num
  refine ⟨hroll, ⟨(pround 2 v) ^ 4, ?_, ((pround 2 v : ℚ) : ℝ), ?_, ?_,
    roundHalfEven (v * 10 ^ 2), ?_, ?_⟩, ?_⟩
  · rw [hroll]
    unfold raise_to_4th_power find_average_of_raised_values
    rw [List.map_replicate]
    rw [if_neg (by simp; omega)]
    congr 1
    rw [List.sum_replicate, nsmul_eq_mul, List.length_replicate]
    have hne : ((n - 29 : ℕ) : ℚ) ≠ 0 := by
      have : 0 < n - 29 := by omega
      exact_mod_cast Nat.cast_pos.mpr this |>.ne'
    field_simp
  · exact_mod_cast pround_nonneg 2 v hv
  · push_cast
    ring
  · have hcast : ((pround 2 v : ℚ) : ℝ) * 100 = ((roundHalfEven (v * 10 ^ 2) : ℤ) : ℝ) := by
      exact_mod_cast congrArg (fun q : ℚ => (q : ℝ)) hwq
    rw [IsRoundHE, hcast]
    left
    constructor <;> norm_num
  · have h100 : (100 : ℚ) ≠ 0 := by norm_num
    field_simp at hwq ⊢
    linarith [hwq]
  · exact le_trans (pround_within 2 v) (by norm_num)

/-- Witness for C4: 40 constant samples at 150 W round-trip to a
Normalized Power of `round(150, 2)`. -/
theorem constant_series_normalized_power_witness :
    30 ≤ 40 ∧ (0 : ℚ) ≤ 150 ∧
    (calculate_rolling_average (List.replicate 40 (150 : ℚ))
       = List.replicate (40 - 29) (pround 2 150) ∧
     normalizedPowerResult (List.replicate 40 (150 : ℚ)) (pround 2 150) ∧
     |pround 2 (150 : ℚ) - 150| ≤ 1/200) :=
  ⟨by norm_num, by norm_num,
   constant_series_normalized_power 40 150 (by norm_num) (by norm_num)⟩

/-! ### Validation facts -/

theorem validate_field_iff {α} (o : Option α) (c : α → Bool) :
    validate_field o c = true ↔ ∃ v, o = some v ∧ c v = true := by
  cases o <;> simp [validate_field]

theorem duration_is_valid_iff (d : ℚ) :
    duration_is_valid d = true ↔ 0 < d ∧ d < 400 := by
  simp [duration_is_valid]

theorem validate_steady_fields (b : RawBlock)
    (h : validate_block_type_steady b = true) :
    ∃ d z, b.duration? = some d ∧ 0 < d ∧ d < 400 ∧
      b.powerZone? = some z ∧ power_zone_is_valid z = true := by
  unfold validate_block_type_steady at h
  rw [Bool.and_eq_true, validate_field_iff, validate_field_iff] at h
  obtain ⟨⟨d, hd, hdv⟩, ⟨z, hz, hzv⟩⟩ := h
  rw [duration_is_valid_iff] at hdv
  exact ⟨d, z, hd, hdv.1, hdv.2, hz, hzv⟩

theorem validate_interval_fields (b : RawBlock)
    (h : validate_block_type_interval b = true) :
    ∃ r wd rd wz rz, b.repeats? = some r ∧ 0 < r ∧
      b.workDuration? = some wd ∧ 0 < wd ∧
      b.restDuration? = some rd ∧ 0 < rd ∧
      b.workPowerZone? = some wz ∧ b.restPowerZone? = some rz := by
  unfold validate_block_type_interval at h
  simp only [Bool.and_eq_true, validate_field_iff] at h
  obtain ⟨⟨⟨⟨⟨r, hr, hrv⟩, wd, hwd, hwdv⟩, rd, hrd, hrdv⟩, wz, hwz, _⟩, rz, hrz, _⟩ := h
  rw [duration_is_valid_iff] at hwdv hrdv
  exact ⟨r, wd, rd, wz, rz, hr, by simpa using hrv, hwd, hwdv.1, hrd, hrdv.1, hwz, hrz⟩

/-! ### Consistency of synthesized totals -/

theorem steady_preserves_consistent (ftp : ℚ) (s : JsonParserState) (d : ℚ)
    (z : String) (hd : 0 < d) (h : Consistent s) :
    Consistent (parse_workout_block_steady ftp s d z) := by
  unfold Consistent at h ⊢
  have hc := convert_minutes_to_seconds_of_pos d hd
  have hnn := floor_sixty_nonneg d hd
  simp only [parse_workout_block_steady, generate_power_readings_steady,
    List.length_append, List.length_replicate, hc]
  push_cast [Int.toNat_of_nonneg hnn]
  linarith

theorem interval_preserves_consistent (ftp wd rd : ℚ) (wz rz : String)
    (hwd : 0 < wd) (hrd : 0 < rd) (n : ℕ) (s : JsonParserState) (h : Consistent s) :
    Consistent (repeatApply
      (fun st =>
        parse_workout_block_steady ftp
          (parse_workout_block_steady ftp st wd wz) rd rz) n s) := by
  induction n generalizing s with
  | zero => exact h
  | succ n ih =>
    rw [repeatApply]
    exact ih _ (steady_preserves_consistent ftp _ rd rz hrd
      (steady_preserves_consistent ftp _ wd wz hwd h))

theorem block_preserves_consistent (ftp : ℚ) (s s2 : JsonParserState) (b : RawBlock)
    (hv : validate_workout_block b = true)
    (hp : parse_workout_block ftp s b = some s2) (h : Consistent s) :
    Consistent s2 := by
  unfold validate_workout_block at hv
  unfold parse_workout_block at hp
  cases htype : b.type? with
  | none =>
    simp only [htype] at hv
    exact Bool.noConfusion hv
  | some t =>
    simp only [htype] at hv hp
    by_cases hlen : ¬ (1 < t.length)
    · rw [if_pos hlen] at hv
      exact absurd hv (by simp)
    · rw [if_neg hlen] at hv
      by_cases hst : t = "steady"
      · rw [if_pos hst] at hv hp
        obtain ⟨d, z, hd, hd0, _, hz, _⟩ := validate_steady_fields b hv
        rw [hd, hz] at hp
        injection hp with hp
        rw [← hp]
        exact steady_preserves_consistent ftp s d z hd0 h
      · rw [if_neg hst] at hv hp
        by_cases hint : t = "interval"
        · rw [if_pos hint] at hv hp
          obtain ⟨r, wd, rd, wz, rz, hr, _, hwd, hwd0, hrd, hrd0, hwz, hrz⟩ :=
            validate_interval_fields b hv
          rw [hr, hwd, hwz, hrd, hrz] at hp
          injection hp with hp
          rw [← hp]
          exact interval_preserves_consistent ftp wd rd wz rz hwd0 hrd0 r.toNat s h
        · rw [if_neg hint] at hv
          exact absurd hv (by simp)

theorem parse_file_preserves_consistent (ftp : ℚ) (blocks : List RawBlock) :
    ∀ s s2 : JsonParserState, Consistent s →
      parse_file ftp s blocks = some s2 → Consistent s2 := by
  induction blocks with
  | nil =>
    intro s s2 h hp
    unfold parse_file at hp
    injection hp with hp
    rw [← hp]
    exact h
  | cons b rest ih =>
    intro s s2 h hp
    unfold parse_file at hp
    by_cases hv : validate_workout_block b = true
    · rw [if_pos hv] at hp
      cases hb : parse_workout_block ftp s b with
      | none => rw [hb] at hp; exact absurd hp (by simp)
      | some s1 =>
        rw [hb] at hp
        simp only [Option.some_bind] at hp
        exact ih s1 s2 (block_preserves_consistent ftp s s1 b hv hb h) hp
    · rw [if_neg hv] at hp
      exact ih s s2 h hp

theorem parse_files_preserves_consistent (ftp : ℚ) (files : List (List RawBlock)) :
    ∀ s s2 : JsonParserState, Consistent s →
      parse_files ftp s files = some s2 → Consistent s2 := by
  induction files with
  | nil =>
    intro s s2 h hp
    unfold parse_files at hp
    injection hp with hp
    rw [← hp]
    exact h
  | cons f rest ih =>
    intro s s2 h hp
    unfold parse_files at hp
    cases hf : parse_file ftp s f with
    | none => rw [hf] at hp; exact absurd hp (by simp)
    | some s1 =>
      rw [hf] at hp
      simp only [Option.some_bind] at hp
      exact ih s1 s2 (parse_file_preserves_consistent ftp f s s1 h hf) hp

/-- C9: after the synthesizer processes any sequence of raw blocks (valid
or invalid) across any number of files starting from a fresh parser, the
accumulated total duration equals the length of the accumulated power
series — the two fields of the handoff are mutually consistent. -/
theorem synthesis_totals_consistent (ftp : ℚ) (files : List (List RawBlock))
    (st : JsonParserState)
    (h : parse_files ftp initial_state files = some st) : Consistent st :=
  parse_files_preserves_consistent ftp files initial_state st
    (by simp [Consistent, initial_state]) h

/-- Witness for C9: one file holding one valid 1-minute steady block. -/
theorem synthesis_totals_consistent_witness :
    parse_files 200 initial_state
        [[RawBlock.mk (some "steady") (some 1) (some "S1") none none none none none]]
      = some (parse_workout_block_steady 200 initial_state 1 "S1") ∧
    Consistent (parse_workout_block_steady 200 initial_state 1 "S1") :=
  ⟨rfl, synthesis_totals_consistent 200
    [[RawBlock.mk (some "steady") (some 1) (some "S1") none none none none none]] _ rfl⟩

/-! ### Invalid blocks are skipped whole -/

/-- C8: in a block sequence made of an invalid block followed by a valid
steady block, synthesis skips the invalid block entirely — it contributes
no samples and no duration — and the resulting totals are exactly the
valid block's contribution: `⌊d * 60⌋` samples and `⌊d * 60⌋` seconds. -/
theorem invalid_block_skipped (ftp d : ℚ) (z : String) (b1 b2 : RawBlock)
    (h1 : validate_workout_block b1 = false)
    (ht : b2.type? = some "steady")
    (hd : b2.duration? = some d) (hz : b2.powerZone? = some z)
    (h2 : validate_workout_block b2 = true) :
    parse_file ftp initial_state [b1, b2]
      = some (parse_workout_block_steady ftp initial_state d z) ∧
    (parse_workout_block_steady ftp initial_state d z).powerReadings.length
      = (⌊d * 60⌋).toNat ∧
    (parse_workout_block_steady ftp initial_state d z).totalDuration = ⌊d * 60⌋ := by
  have hd0 : 0 < d := by
    unfold validate_workout_block at h2
    simp only [ht] at h2
    rw [if_neg (by decide), if_pos trivial] at h2
    obtain ⟨d2, z2, hd2, h0, _, _, _⟩ := validate_steady_fields b2 h2
    rw [hd] at hd2
    injection hd2 with hdd
    rw [hdd]
    exact h0
  have hc := convert_minutes_to_seconds_of_pos d hd0
  refine ⟨?_, ?_, ?_⟩
  · simp only [parse_file, h1, h2, Bool.false_eq_true, if_false, if_true,
      parse_workout_block, ht, hd, hz]
    rfl
  · simp [parse_workout_block_steady, generate_power_readings_steady, initial_state, hc]
  · simp [parse_workout_block_steady, initial_state, hc]

/-- Witness for C8: a steady block missing its `duration` field followed
by a valid 1-minute `S1` steady block at FTP 200. -/
theorem invalid_block_skipped_witness :
    validate_workout_block
        (RawBlock.mk (some "steady") none (some "S1") none none none none none) = false ∧
    (RawBlock.mk (some "steady") (some 1) (some "S1") none none none none none).type?
      = some "steady" ∧
    validate_workout_block
        (RawBlock.mk (some "steady") (some 1) (some "S1") none none none none none) = true ∧
    (parse_file 200 initial_state
        [RawBlock.mk (some "steady") none (some "S1") none none none none none,
         RawBlock.mk (some "steady") (some 1) (some "S1") none none none none none]
       = some (parse_workout_block_steady 200 initial_state 1 "S1") ∧
     (parse_workout_block_steady 200 initial_state 1 "S1").powerReadings.length
       = (⌊(1 : ℚ) * 60⌋).toNat ∧
     (parse_workout_block_steady 200 initial_state 1 "S1").totalDuration
       = ⌊(1 : ℚ) * 60⌋) :=
  ⟨rfl, rfl, rfl,
   invalid_block_skipped 200 1 "S1"
     (RawBlock.mk (some "steady") none (some "S1") none none none none none)
     (RawBlock.mk (some "steady") (some 1) (some "S1") none none none none none)
     rfl rfl rfl rfl rfl⟩
